import Mathlib

/-!
Verification development for the `koa-middleware-sst-html-polyfill-external-import-map`
repository (`src/libs/koa-middleware-sst-html-polyfill-external-import-map/src/index.ts`).

The middleware rewrites HTML responses on their way out of a Koa server: every
`script` element with `type="importmap"` and a `src` attribute has the referenced
JSON file inlined as the element content, with the `src` attribute removed.

The embedding below translates:
  * the posix path operations of `path-browserify` used by the source
    (`Path.isAbsolute`, `Path.join`, `Path.resolve`, `Path.dirname`);
  * the element-rewriting callback registered on the `HTMLRewriter`
    (`processElement`), including the ECMAScript dynamic `import()` used to
    load the JSON file, with its host module registry made explicit state;
  * the per-document transform (`transformResponse`);
  * the body-normalization dispatcher returned by `createMiddleware`
    (`middlewarePost`, the part of the middleware that runs after `await next()`).
-/

set_option autoImplicit false

namespace ImportMapMiddleware

/-! ## Path operations (posix semantics of `path-browserify`) -/

namespace Path

/-- Split a string at every `'/'` character, keeping empty segments,
matching how `normalizeStringPosix` scans its input slash-to-slash. -/
def splitSlashAux : List Char → List Char → List String
  | [], acc => [String.mk acc.reverse]
  | c :: rest, acc =>
    if c = '/' then String.mk acc.reverse :: splitSlashAux rest []
    else splitSlashAux rest (c :: acc)

def splitSlash (s : String) : List String :=
  splitSlashAux s.data []

/-- Join segments with `'/'` separators. -/
def joinSlash : List String → String
  | [] => ""
  | [s] => s
  | s :: rest => s ++ "/" ++ joinSlash rest

/-- Embedding of `Path.isAbsolute`: a path is absolute when it is nonempty and starts with `'/'`. -/
def isAbsolute (p : String) : Bool :=
  match p.data with
  | [] => false
  | c :: _ => c = '/'

/-- One segment step of `normalizeStringPosix`: `""` and `"."` are dropped,
`".."` pops the last real segment (or is kept when `allowAboveRoot` and there
is nothing left to pop), and any other segment is pushed. The accumulator is
the list of output segments in reverse order. -/
def normSegStep (allowAboveRoot : Bool) (stack : List String) (seg : String) : List String :=
  if seg = "" ∨ seg = "." then stack
  else if seg = ".." then
    match stack with
    | [] => if allowAboveRoot then [".."] else []
    | top :: rest =>
      if top = ".." then (if allowAboveRoot then ".." :: stack else stack)
      else rest
  else seg :: stack

/-- Embedding of `normalizeStringPosix path allowAboveRoot` from `path-browserify`,
expressed segment-wise. -/
def normalizeStringPosix (allowAboveRoot : Bool) (p : String) : String :=
  joinSlash (((splitSlash p).foldl (normSegStep allowAboveRoot) []).reverse)

def endsWithSlash (p : String) : Bool :=
  match p.data.getLast? with
  | some c => c = '/'
  | none => false

/-- Embedding of `Path.normalize` (posix). -/
def normalize (p : String) : String :=
  if p = "" then "."
  else
    let isAbs := isAbsolute p
    let trailing := endsWithSlash p
    let r1 := normalizeStringPosix (!isAbs) p
    let r2 := if r1 = "" ∧ isAbs = false then "." else r1
    let r3 := if r2 ≠ "" ∧ trailing = true then r2 ++ "/" else r2
    if isAbs then "/" ++ r3 else r3

/-- Embedding of `Path.join(a, b)`: empty arguments are skipped, the rest are joined with
`'/'` and normalized; with no nonempty argument the result is `"."`. -/
def join2 (a b : String) : String :=
  if a = "" ∧ b = "" then "."
  else if a = "" then normalize b
  else if b = "" then normalize a
  else normalize (a ++ "/" ++ b)

/-- One step of `Path.resolve`'s right-to-left accumulation: once an absolute
path has been found the remaining arguments are ignored; empty arguments are
skipped; otherwise the argument is prepended with a `'/'` separator. -/
def resolveStep (p : String) (acc : String × Bool) : String × Bool :=
  if acc.2 then acc
  else if p = "" then acc
  else (p ++ "/" ++ acc.1, isAbsolute p)

/-- Embedding of `Path.resolve(args...)` with the process working directory made explicit:
arguments are consumed right to left until one is absolute, falling back to
`cwd`, and the accumulated string is normalized. -/
def resolveList (cwd : String) (args : List String) : String :=
  let acc := (cwd :: args).foldr resolveStep ("", false)
  let r := normalizeStringPosix (!acc.2) acc.1
  if acc.2 then (if r = "" then "/" else "/" ++ r)
  else (if r = "" then "." else r)

/-- Scan used by `dirname`: walking the characters at positions `n-1, …, 1`
from the end, skip trailing slashes, then return the index of the next slash
(the end of the directory part), if any. -/
def dirScan : List Char → Nat → Bool → Option Nat
  | [], _, _ => none
  | c :: rest, i, matchedSlash =>
    if c = '/' then
      if matchedSlash then dirScan rest (i - 1) matchedSlash
      else some i
    else dirScan rest (i - 1) false

/-- Embedding of `Path.dirname` (posix). -/
def dirname (p : String) : String :=
  if p = "" then "."
  else
    let hasRoot := isAbsolute p
    match dirScan (p.data.drop 1).reverse (p.data.length - 1) true with
    | none => if hasRoot then "/" else "."
    | some e => if hasRoot ∧ e = 1 then "//" else String.mk (p.data.take e)

end Path

/-! ## JSON values and compact serialization

JSON parsing is an external capability of the host ("parse bytes to a
structured value"); `serializeJson` models `JSON.stringify` of the parsed
value: the compact serialization with no added whitespace. -/

inductive Json where
  | null
  | bool (b : Bool)
  | num (n : Int)
  | str (s : String)
  | arr (elems : List Json)
  | obj (fields : List (String × Json))

mutual

def serializeJson : Json → String
  | .null => "null"
  | .bool true => "true"
  | .bool false => "false"
  | .num n => toString n
  | .str s => "\"" ++ s ++ "\""
  | .arr elems => "[" ++ serializeJsonElems elems ++ "]"
  | .obj fields => "\x7b" ++ serializeJsonFields fields ++ "\x7d"

def serializeJsonElems : List Json → String
  | [] => ""
  | [j] => serializeJson j
  | j :: rest => serializeJson j ++ "," ++ serializeJsonElems rest

def serializeJsonFields : List (String × Json) → String
  | [] => ""
  | [f] => "\"" ++ f.1 ++ "\":" ++ serializeJson f.2
  | f :: rest => "\"" ++ f.1 ++ "\":" ++ serializeJson f.2 ++ "," ++ serializeJsonFields rest

end

/-! ## HTML documents

The `HTMLRewriter` engine is an external collaborator: the source only uses
"register a callback per element; read attributes; mutate attributes and inner
content; serialize back out". A document is embedded as the stream of items the
rewriter sees: raw text chunks interleaved with elements, each element carrying
its tag name, its attribute list (in order) and its inner content. -/

structure Element where
  tagName : String
  attributes : List (String × String)
  content : String

inductive Node where
  | text (s : String)
  | element (el : Element)

/-- Embedding of `el.getAttribute(name)`: the value of the first attribute with the given
name, or `none` when absent. -/
def getAttribute (el : Element) (name : String) : Option String :=
  (el.attributes.find? (fun a => a.1 == name)).map (fun a => a.2)

/-- Embedding of `el.removeAttribute(name)` on an attribute list. -/
def removeAttribute (attrs : List (String × String)) (name : String) :
    List (String × String) :=
  attrs.filter (fun a => !(a.1 == name))

def serializeAttributes : List (String × String) → String
  | [] => ""
  | (n, v) :: rest => " " ++ n ++ "=\"" ++ v ++ "\"" ++ serializeAttributes rest

def serializeNode : Node → String
  | .text s => s
  | .element el =>
    "<" ++ el.tagName ++ serializeAttributes el.attributes ++ ">" ++
      el.content ++ "</" ++ el.tagName ++ ">"

/-- Serialization of the rewritten document back to text, as produced by
draining the transformed response (`await (await transformedResponse.blob()).text()`). -/
def serializeDoc (doc : List Node) : String :=
  String.join (doc.map serializeNode)

/-! ## Host environment

The capabilities the source delegates to its host, snapshotted for one point in
time: the file system, the host JSON parser, the host HTML tokenizer (how the
rewriter reads a byte stream into the element stream above), the UTF-8 decoder,
and the process working directory used by `Path.resolve`. -/

structure Env where
  /-- The value of `process.cwd()`, the fallback of `Path.resolve`. -/
  cwd : String
  /-- Read a file: `some` content, or `none` when missing or unreadable. -/
  fs : String → Option String
  /-- Parse text as JSON: `none` on malformed input. -/
  parseJson : String → Option Json
  /-- The host HTML tokenizer feeding the rewriter. -/
  parseHtml : String → List Node
  /-- The host UTF-8 decoder used when a byte body is read as text. -/
  utf8Decode : List Nat → String

/-! ## Dynamic `import()` with a JSON import assertion

`await import(path, { assert: { type: "json" } })` goes through the
ECMAScript host module registry: loading the same resolved specifier twice
must yield the same module record, so the registry caches the parsed value by
path for the lifetime of the process. A fresh path is read from the file
system and parsed as JSON; failures are not cached. -/

def Registry := List (String × Json)

inductive TransformError where
  | loadFailure (path : String)
  | parseFailure (path : String)

def importJsonModule (env : Env) (reg : Registry) (path : String) :
    Except TransformError Json × Registry :=
  match List.find? (fun entry => entry.1 == path) reg with
  | some entry => (.ok entry.2, reg)
  | none =>
    match env.fs path with
    | none => (.error (.loadFailure path), reg)
    | some contents =>
      match env.parseJson contents with
      | none => (.error (.parseFailure path), reg)
      | some j => (.ok j, (path, j) :: reg)

/-! ## The element callback and the document transform -/

/-- The path computation inside the element callback of `transformResponse`:
an absolute `src` is joined onto the served directory, a relative one is
resolved against the directory of the requested HTML file. -/
def resolveImportMapSrc (cwd servedDirectoryAbsolutePath htmlFilePath src : String) :
    String :=
  if Path.isAbsolute src then Path.join2 servedDirectoryAbsolutePath src
  else Path.resolveList cwd [Path.dirname htmlFilePath, src]

/-- The callback registered on `htmlRewriter.on("*", { element })`: skip
non-`script` tags, skip a missing or non-`importmap` type, skip a missing
`src`; otherwise import the referenced JSON module, drop the `src` attribute
and set the element content to the serialized JSON. -/
def processElement (env : Env) (servedDirectoryAbsolutePath htmlFilePath : String)
    (el : Element) (reg : Registry) : Except TransformError Element × Registry :=
  if el.tagName ≠ "script" then (.ok el, reg)
  else
    match getAttribute el "type" with
    | none => (.ok el, reg)
    | some typeAttribute =>
      if typeAttribute ≠ "importmap" then (.ok el, reg)
      else
        match getAttribute el "src" with
        | none => (.ok el, reg)
        | some srcAttribute =>
          let path := resolveImportMapSrc env.cwd servedDirectoryAbsolutePath
            htmlFilePath srcAttribute
          match importJsonModule env reg path with
          | (.error e, reg') => (.error e, reg')
          | (.ok j, reg') =>
            (.ok { el with attributes := removeAttribute el.attributes "src",
                           content := serializeJson j }, reg')

/-- Embedding of `transformResponse`: run the element callback over every element of the
document in order, threading the module registry; the first failure rejects
the whole transform and no partial document is produced. -/
def transformResponse (env : Env) (servedDirectoryAbsolutePath htmlFilePath : String) :
    List Node → Registry → Except TransformError (List Node) × Registry
  | [], reg => (.ok [], reg)
  | .text s :: rest, reg =>
    match transformResponse env servedDirectoryAbsolutePath htmlFilePath rest reg with
    | (.ok rest', reg') => (.ok (.text s :: rest'), reg')
    | (.error e, reg') => (.error e, reg')
  | .element el :: rest, reg =>
    match processElement env servedDirectoryAbsolutePath htmlFilePath el reg with
    | (.error e, reg') => (.error e, reg')
    | (.ok el', reg') =>
      match transformResponse env servedDirectoryAbsolutePath htmlFilePath rest reg' with
      | (.ok rest', reg'') => (.ok (.element el' :: rest'), reg'')
      | (.error e, reg'') => (.error e, reg'')

/-! ## The middleware returned by `createMiddleware`

Koa hands the middleware a context; after `await next()` the middleware
post-processes the finished response. The context is embedded as the request
url together with the response's declared content type and its body, the body
being exactly one of: a string, a `Uint8Array`, a `ReadStream` (a sequence of
byte chunks), or some other value known only by its constructor name. -/

inductive ResponseBody where
  | text (s : String)
  | binary (bytes : List Nat)
  | stream (chunks : List (List Nat))
  | other (constructorName : String)

structure Ctx where
  requestUrl : String
  responseType : String
  responseBody : ResponseBody

structure MiddlewareOptions where
  servedDirectoryAbsolutePath : String
  shouldRun : Option (Ctx → Bool)
  getFilePathOfRequestUrl : String → String

/-- The value of `options.shouldRun?.(ctx) ?? true`. -/
def shouldRunValue (options : MiddlewareOptions) (ctx : Ctx) : Bool :=
  match options.shouldRun with
  | some f => f ctx
  | none => true

inductive MiddlewareError where
  | transform (e : TransformError)
  | unsupportedBody (constructorName : String)

/-- Outcome of one run of the middleware's post-processing: the error that was
thrown (if any, to propagate to the host framework as an unhandled failure),
the context as the middleware leaves it, and the module registry afterwards. -/
structure MiddlewareOutput where
  error : Option MiddlewareError
  ctx : Ctx
  registry : Registry

/-- Embedding of `readStreamToString`: collect all chunks of the stream into one buffer and
decode it as UTF-8. -/
def readStreamToString (env : Env) (chunks : List (List Nat)) : String :=
  env.utf8Decode chunks.flatten

/-- The common tail of the three supported body branches: transform the text,
then (only on success) install the transformed text as the body and re-assert
the `text/html` content type. A thrown transform error leaves the context
exactly as it was. -/
def runTransformOnText (env : Env) (options : MiddlewareOptions)
    (htmlFilePath : String) (initialCode : String) (ctx : Ctx) (reg : Registry) :
    MiddlewareOutput :=
  match transformResponse env options.servedDirectoryAbsolutePath htmlFilePath
      (env.parseHtml initialCode) reg with
  | (.ok doc', reg') =>
    ⟨none,
     { ctx with responseBody := .text (serializeDoc doc'), responseType := "text/html" },
     reg'⟩
  | (.error e, reg') => ⟨some (.transform e), ctx, reg'⟩

/-- The function returned by `createMiddleware options`, restricted to what it
does after `await next()` has produced the response: skip non-HTML responses,
skip when the configured predicate declines, otherwise dispatch on the body
representation and transform. -/
def middlewarePost (env : Env) (options : MiddlewareOptions) (ctx : Ctx)
    (reg : Registry) : MiddlewareOutput :=
  if ctx.responseType ≠ "text/html" then ⟨none, ctx, reg⟩
  else if shouldRunValue options ctx = false then ⟨none, ctx, reg⟩
  else
    let requestHtmlFileAbsolutePath := Path.join2 options.servedDirectoryAbsolutePath
      (options.getFilePathOfRequestUrl ctx.requestUrl)
    match ctx.responseBody with
    | .text s => runTransformOnText env options requestHtmlFileAbsolutePath s ctx reg
    | .binary bytes =>
      runTransformOnText env options requestHtmlFileAbsolutePath
        (env.utf8Decode bytes) ctx reg
    | .stream chunks =>
      runTransformOnText env options requestHtmlFileAbsolutePath
        (readStreamToString env chunks) ctx reg
    | .other name => ⟨some (.unsupportedBody name), ctx, reg⟩

/-! ## Helper lemmas -/

/-- The guard of the element callback: a `script` tag with `type="importmap"`
and a `src` attribute. -/
def matchesExternalImportMap (el : Element) : Prop :=
  el.tagName = "script" ∧ getAttribute el "type" = some "importmap" ∧
    ∃ src, getAttribute el "src" = some src

theorem not_matches_iff (el : Element) :
    ¬ matchesExternalImportMap el ↔
      el.tagName ≠ "script" ∨ getAttribute el "type" = none ∨
      (∃ t, getAttribute el "type" = some t ∧ t ≠ "importmap") ∨
      (getAttribute el "type" = some "importmap" ∧ getAttribute el "src" = none) := by
  unfold matchesExternalImportMap
  constructor
  · intro h
    by_cases htag : el.tagName = "script"
    · cases hty : getAttribute el "type" with
      | none => exact .inr (.inl rfl)
      | some t =>
        by_cases hti : t = "importmap"
        · subst hti
          cases hsrc : getAttribute el "src" with
          | none => exact .inr (.inr (.inr ⟨rfl, rfl⟩))
          | some s => exact absurd ⟨htag, hty, s, hsrc⟩ h
        · exact .inr (.inr (.inl ⟨t, rfl, hti⟩))
    · exact .inl htag
  · rintro (h | h | ⟨t, ht, hne⟩ | ⟨ht, hs⟩) ⟨htag, hty, src, hsrc⟩
    · exact h htag
    · rw [h] at hty; exact Option.noConfusion hty
    · rw [ht] at hty; exact hne (Option.some.inj hty)
    · rw [hs] at hsrc; exact Option.noConfusion hsrc

theorem processElement_of_not_matches (env : Env) (root hp : String) (el : Element)
    (reg : Registry) (h : ¬ matchesExternalImportMap el) :
    processElement env root hp el reg = (.ok el, reg) := by
  rw [not_matches_iff] at h
  unfold processElement
  rcases h with h | h | ⟨t, ht, hne⟩ | ⟨ht, hs⟩
  · rw [if_pos h]
  · by_cases htag : el.tagName ≠ "script"
    · rw [if_pos htag]
    · rw [if_neg htag, h]
  · by_cases htag : el.tagName ≠ "script"
    · rw [if_pos htag]
    · rw [if_neg htag]
      simp only [ht]
      rw [if_pos hne]
  · by_cases htag : el.tagName ≠ "script"
    · rw [if_pos htag]
    · rw [if_neg htag]
      simp only [ht]
      rw [if_neg (by simp), hs]

theorem find?_removeAttribute_self (attrs : List (String × String)) (m : String) :
    List.find? (fun a => a.1 == m) (removeAttribute attrs m) = none := by
  unfold removeAttribute
  induction attrs with
  | nil => rfl
  | cons a rest ih =>
    by_cases hm : a.1 = m
    · simp [List.filter_cons, hm, ih]
    · simp [List.filter_cons, List.find?_cons, hm, ih]

theorem find?_removeAttribute_ne (attrs : List (String × String)) (n m : String)
    (hnm : n ≠ m) :
    List.find? (fun a => a.1 == n) (removeAttribute attrs m) =
      List.find? (fun a => a.1 == n) attrs := by
  unfold removeAttribute
  induction attrs with
  | nil => rfl
  | cons a rest ih =>
    by_cases han : a.1 = n
    · have ham : ¬ a.1 = m := by rw [han]; exact hnm
      simp [List.filter_cons, List.find?_cons, han, ham, hnm]
    · by_cases ham : a.1 = m
      · simp [List.filter_cons, List.find?_cons, han, ham, ih, Ne.symm hnm]
      · simp [List.filter_cons, List.find?_cons, han, ham, ih]

/-- The element produced by a successful rewrite: `src` removed, content set. -/
def rewrittenElement (el : Element) (j : Json) : Element :=
  { el with attributes := removeAttribute el.attributes "src",
            content := serializeJson j }

theorem getAttribute_rewritten_type (el : Element) (j : Json) :
    getAttribute (rewrittenElement el j) "type" = getAttribute el "type" := by
  unfold rewrittenElement getAttribute
  simp only
  rw [find?_removeAttribute_ne _ _ _ (by decide)]

theorem getAttribute_rewritten_src (el : Element) (j : Json) :
    getAttribute (rewrittenElement el j) "src" = none := by
  unfold rewrittenElement getAttribute
  simp only
  rw [find?_removeAttribute_self]
  rfl

/-- The matched branch of the element callback, expressed through
`importJsonModule`. -/
theorem processElement_matched (env : Env) (root hp : String) (el : Element)
    (reg : Registry) (src : String)
    (htag : el.tagName = "script")
    (hty : getAttribute el "type" = some "importmap")
    (hsrc : getAttribute el "src" = some src) :
    processElement env root hp el reg =
      match importJsonModule env reg (resolveImportMapSrc env.cwd root hp src) with
      | (.error e, reg') => (.error e, reg')
      | (.ok j, reg') => (.ok (rewrittenElement el j), reg') := by
  unfold processElement rewrittenElement
  rw [if_neg (by simp [htag])]
  simp only [hty]
  rw [if_neg (by simp)]
  simp only [hsrc]

/-- Whatever the element callback returns successfully no longer matches the
rewrite guard: a skipped element did not match, and a rewritten one has lost
its `src` attribute. -/
theorem processElement_ok_not_matches (env : Env) (root hp : String) (el el' : Element)
    (reg reg' : Registry)
    (h : processElement env root hp el reg = (.ok el', reg')) :
    ¬ matchesExternalImportMap el' := by
  by_cases hm : matchesExternalImportMap el
  · obtain ⟨htag, hty, src, hsrc⟩ := hm
    rw [processElement_matched env root hp el reg src htag hty hsrc] at h
    rcases himp : importJsonModule env reg (resolveImportMapSrc env.cwd root hp src)
      with ⟨res, regi⟩
    rw [himp] at h
    cases res with
    | error e => simp at h
    | ok j =>
      simp only [Prod.mk.injEq, Except.ok.injEq] at h
      rw [← h.1]
      rintro ⟨-, -, s, hs⟩
      rw [getAttribute_rewritten_src] at hs
      exact Option.noConfusion hs
  · rw [processElement_of_not_matches env root hp el reg hm] at h
    simp only [Prod.mk.injEq, Except.ok.injEq] at h
    rw [← h.1]
    exact hm

theorem processElement_ok_stable (env env₂ : Env) (root hp root₂ hp₂ : String)
    (el el' : Element) (reg reg' reg₂ : Registry)
    (h : processElement env root hp el reg = (.ok el', reg')) :
    processElement env₂ root₂ hp₂ el' reg₂ = (.ok el', reg₂) :=
  processElement_of_not_matches env₂ root₂ hp₂ el' reg₂
    (processElement_ok_not_matches env root hp el el' reg reg' h)

/-- A document produced by a successful transform is a fixed point of the
transform: every element in it fails the rewrite guard, so a second run
touches nothing and, in particular, performs no imports. -/
theorem transformResponse_ok_stable (env env₂ : Env) (root hp root₂ hp₂ : String) :
    ∀ (doc doc' : List Node) (reg reg' reg₂ : Registry),
      transformResponse env root hp doc reg = (.ok doc', reg') →
      transformResponse env₂ root₂ hp₂ doc' reg₂ = (.ok doc', reg₂) := by
  intro doc
  induction doc with
  | nil =>
    intro doc' reg reg' reg₂ h
    simp only [transformResponse, Prod.mk.injEq, Except.ok.injEq] at h
    rw [← h.1]
    rfl
  | cons node rest ih =>
    intro doc' reg reg' reg₂ h
    cases node with
    | text s =>
      simp only [transformResponse] at h
      rcases htr : transformResponse env root hp rest reg with ⟨res, regA⟩
      rw [htr] at h
      cases res with
      | error e => simp at h
      | ok rest' =>
        simp only [Prod.mk.injEq, Except.ok.injEq] at h
        rw [← h.1]
        simp only [transformResponse]
        rw [ih rest' reg regA reg₂ htr]
    | element el =>
      simp only [transformResponse] at h
      rcases hpe : processElement env root hp el reg with ⟨pres, regA⟩
      rw [hpe] at h
      cases pres with
      | error e => simp at h
      | ok el' =>
        rcases htr : transformResponse env root hp rest regA with ⟨res, regB⟩
        simp only at h
        rw [htr] at h
        cases res with
        | error e => simp at h
        | ok rest' =>
          simp only [Prod.mk.injEq, Except.ok.injEq] at h
          rw [← h.1]
          simp only [transformResponse,
            processElement_ok_stable env env₂ root hp root₂ hp₂ el el' reg regA reg₂ hpe,
            ih rest' regA regB reg₂ htr]

/-- A node the rewrite guard does not match. -/
def nodeUntouchedByTransform : Node → Prop
  | .text _ => True
  | .element el => ¬ matchesExternalImportMap el

/-- Frame property of a successful transform: every text chunk and every
non-matching element reappears unchanged at its own position. -/
theorem transformResponse_frame (env : Env) (root hp : String) :
    ∀ (doc doc' : List Node) (reg reg' : Registry),
      transformResponse env root hp doc reg = (.ok doc', reg') →
      ∀ (i : Nat) (n : Node), doc.get? i = some n → nodeUntouchedByTransform n →
        doc'.get? i = some n := by
  intro doc
  induction doc with
  | nil =>
    intro doc' reg reg' h i n hi
    exact absurd hi (by simp)
  | cons node rest ih =>
    intro doc' reg reg' h i n hi hn
    cases node with
    | text s =>
      simp only [transformResponse] at h
      rcases htr : transformResponse env root hp rest reg with ⟨res, regA⟩
      rw [htr] at h
      cases res with
      | error e => simp at h
      | ok rest' =>
        simp only [Prod.mk.injEq, Except.ok.injEq] at h
        rw [← h.1]
        cases i with
        | zero => exact hi
        | succ k => exact ih rest' reg regA htr k n hi hn
    | element el =>
      simp only [transformResponse] at h
      rcases hpe : processElement env root hp el reg with ⟨pres, regA⟩
      rw [hpe] at h
      cases pres with
      | error e => simp at h
      | ok el' =>
        rcases htr : transformResponse env root hp rest regA with ⟨res, regB⟩
        simp only at h
        rw [htr] at h
        cases res with
        | error e => simp at h
        | ok rest' =>
          simp only [Prod.mk.injEq, Except.ok.injEq] at h
          rw [← h.1]
          cases i with
          | zero =>
            have hn' : n = .element el := by
              simp only [List.get?] at hi
              exact (Option.some.inj hi).symm
            subst hn'
            have hskip : processElement env root hp el reg = (.ok el, reg) :=
              processElement_of_not_matches env root hp el reg hn
            rw [hskip] at hpe
            simp only [Prod.mk.injEq, Except.ok.injEq] at hpe
            simp [hpe.1]
          | succ k => exact ih rest' regA regB htr k n hi hn

/-- Error propagation: if the elements before `el` transform successfully and
the callback fails on `el`, the whole document transform fails with that
error, producing no partial output. -/
theorem transformResponse_append_error (env : Env) (root hp : String) (el : Element)
    (post : List Node) (e : TransformError) :
    ∀ (pre pre' : List Node) (reg₀ reg₁ : Registry),
      transformResponse env root hp pre reg₀ = (.ok pre', reg₁) →
      processElement env root hp el reg₁ = (.error e, reg₁) →
      transformResponse env root hp (pre ++ .element el :: post) reg₀ = (.error e, reg₁) := by
  intro pre
  induction pre with
  | nil =>
    intro pre' reg₀ reg₁ h hel
    simp only [transformResponse, Prod.mk.injEq, Except.ok.injEq] at h
    rw [← h.2] at hel
    simp only [List.nil_append, transformResponse]
    rw [hel, h.2]
  | cons node rest ih =>
    intro pre' reg₀ reg₁ h hel
    cases node with
    | text s =>
      simp only [transformResponse] at h
      rcases htr : transformResponse env root hp rest reg₀ with ⟨res, regA⟩
      rw [htr] at h
      cases res with
      | error e' => simp at h
      | ok rest' =>
        simp only [Prod.mk.injEq, Except.ok.injEq] at h
        rw [← h.2] at hel
        rw [List.cons_append]
        simp only [transformResponse, ih rest' reg₀ regA htr hel]
        rw [h.2]
    | element el₀ =>
      simp only [transformResponse] at h
      rcases hpe : processElement env root hp el₀ reg₀ with ⟨pres, regA⟩
      rw [hpe] at h
      cases pres with
      | error e' => simp at h
      | ok el₀' =>
        rcases htr : transformResponse env root hp rest regA with ⟨res, regB⟩
        simp only at h
        rw [htr] at h
        cases res with
        | error e' => simp at h
        | ok rest' =>
          simp only [Prod.mk.injEq, Except.ok.injEq] at h
          rw [← h.2] at hel
          rw [List.cons_append]
          simp only [transformResponse, hpe, ih rest' regA regB htr hel]
          rw [h.2]

/-! ## Claims -/

/-- Claim C1: for a `script` element with `type="importmap"` and a `src`
attribute, the resolved file-system path of the import map is the join of the
served root with `src` when `src` is absolute, and otherwise the resolution of
`src` against the directory containing the requesting document; in particular,
with served root `/site`, requesting document `/site/pages/a.html` and
`src="../maps/m.json"`, the resolved path is `/site/maps/m.json`, obtained
through the document's directory. -/
theorem c1_import_map_path_resolution (cwd root docPath src : String) :
    (Path.isAbsolute src = true →
      resolveImportMapSrc cwd root docPath src = Path.join2 root src)
    ∧ (Path.isAbsolute src = false →
      resolveImportMapSrc cwd root docPath src =
        Path.resolveList cwd [Path.dirname docPath, src])
    ∧ resolveImportMapSrc cwd "/site" "/site/pages/a.html" "../maps/m.json" =
        "/site/maps/m.json" := by
  refine ⟨fun h => ?_, fun h => ?_, ?_⟩
  · simp [resolveImportMapSrc, h]
  · simp [resolveImportMapSrc, h]
  · have habs : Path.isAbsolute "../maps/m.json" = false := by decide
    have hdir : Path.dirname "/site/pages/a.html" = "/site/pages" := by decide
    have hfold : List.foldr Path.resolveStep ("", false) ["/site/pages", "../maps/m.json"]
        = ("/site/pages/../maps/m.json/", true) := by decide
    have hstep : Path.resolveStep cwd ("/site/pages/../maps/m.json/", true)
        = ("/site/pages/../maps/m.json/", true) := rfl
    simp only [resolveImportMapSrc, habs, Bool.false_eq_true, if_false]
    rw [hdir]
    unfold Path.resolveList
    rw [List.foldr_cons, hfold, hstep]
    decide

theorem c1_witness :
    resolveImportMapSrc "/" "/site" "/site/pages/a.html" "../maps/m.json" =
      "/site/maps/m.json"
    ∧ resolveImportMapSrc "/" "/site" "/site/pages/a.html" "/maps/m.json" =
      Path.join2 "/site" "/maps/m.json" :=
  ⟨(c1_import_map_path_resolution "/" "/site" "/site/pages/a.html" "../maps/m.json").2.2,
   (c1_import_map_path_resolution "/" "/site" "/site/pages/a.html" "/maps/m.json").1
     (by decide)⟩

/-- Claim C2: the transform modifies an element only when its tag is `script`,
its `type` attribute is present and equal to `importmap`, and its `src`
attribute is present; every other element — wrong tag, absent `type`, `type`
different from `importmap`, or an inline import map without `src` — is left
unmodified (and the module registry is untouched for it). -/
theorem c2_only_matching_elements_modified (env : Env) (root hp : String)
    (el : Element) (reg : Registry) :
    ((el.tagName ≠ "script" ∨ getAttribute el "type" = none ∨
        (∃ t, getAttribute el "type" = some t ∧ t ≠ "importmap") ∨
        (getAttribute el "type" = some "importmap" ∧ getAttribute el "src" = none)) →
      processElement env root hp el reg = (.ok el, reg))
    ∧ (∀ (el' : Element) (reg' : Registry),
        processElement env root hp el reg = (.ok el', reg') → el' ≠ el →
        el.tagName = "script" ∧ getAttribute el "type" = some "importmap" ∧
          ∃ src, getAttribute el "src" = some src) := by
  constructor
  · intro h
    exact processElement_of_not_matches env root hp el reg ((not_matches_iff el).mpr h)
  · intro el' reg' h hne
    by_cases hm : matchesExternalImportMap el
    · exact hm
    · rw [processElement_of_not_matches env root hp el reg hm] at h
      simp only [Prod.mk.injEq, Except.ok.injEq] at h
      exact absurd h.1.symm hne

/-- Environment used by the concrete witnesses: serves `/site`, has one
import-map file at `/site/maps/m.json` with raw content `"c"`, and a JSON
parser recognizing that content. -/
def witnessEnv : Env where
  cwd := "/"
  fs := fun p => if p = "/site/maps/m.json" then some "c" else none
  parseJson := fun s => if s = "c" then some (.obj [("imports", .obj [])]) else none
  parseHtml := fun _ => []
  utf8Decode := fun _ => ""

theorem c2_witness :
    processElement witnessEnv "/site" "/site/pages/a.html" ⟨"div", [], "x"⟩ [] =
      (.ok ⟨"div", [], "x"⟩, [])
    ∧ processElement witnessEnv "/site" "/site/pages/a.html"
        ⟨"script", [("type", "importmap")], "inline"⟩ [] =
      (.ok ⟨"script", [("type", "importmap")], "inline"⟩, []) :=
  ⟨(c2_only_matching_elements_modified witnessEnv "/site" "/site/pages/a.html"
      ⟨"div", [], "x"⟩ []).1 (.inl (by decide)),
   (c2_only_matching_elements_modified witnessEnv "/site" "/site/pages/a.html"
      ⟨"script", [("type", "importmap")], "inline"⟩ []).1
     (.inr (.inr (.inr ⟨rfl, rfl⟩)))⟩

/-- Claim C3: a matched `script[type=importmap][src]` element whose referenced
file loads (fresh in the module registry) and parses successfully is rewritten
with its `src` attribute removed and its content set to the compact
serialization of the parsed document; all other nodes — text chunks and
non-matching elements — reappear unchanged at their own positions. -/
theorem c3_successful_inline (env : Env) (root hp : String) (el : Element)
    (reg : Registry) (src contents : String) (j : Json)
    (htag : el.tagName = "script")
    (hty : getAttribute el "type" = some "importmap")
    (hsrc : getAttribute el "src" = some src)
    (hfresh : List.find? (fun entry => entry.1 == resolveImportMapSrc env.cwd root hp src)
      reg = none)
    (hread : env.fs (resolveImportMapSrc env.cwd root hp src) = some contents)
    (hparse : env.parseJson contents = some j) :
    processElement env root hp el reg =
      (.ok (rewrittenElement el j), (resolveImportMapSrc env.cwd root hp src, j) :: reg)
    ∧ getAttribute (rewrittenElement el j) "src" = none
    ∧ (rewrittenElement el j).content = serializeJson j
    ∧ (∀ (doc doc' : List Node) (reg₀ reg' : Registry),
        transformResponse env root hp doc reg₀ = (.ok doc', reg') →
        ∀ (i : Nat) (n : Node), doc.get? i = some n → nodeUntouchedByTransform n →
          doc'.get? i = some n) := by
  refine ⟨?_, getAttribute_rewritten_src el j, rfl, transformResponse_frame env root hp⟩
  rw [processElement_matched env root hp el reg src htag hty hsrc]
  unfold importJsonModule
  simp only [hfresh, hread, hparse]

theorem c3_witness :
    processElement witnessEnv "/site" "/site/pages/a.html"
      ⟨"script", [("type", "importmap"), ("src", "../maps/m.json")], ""⟩ [] =
      (.ok ⟨"script", [("type", "importmap")],
        "\x7b\"imports\":\x7b\x7d\x7d"⟩,
       [("/site/maps/m.json", .obj [("imports", .obj [])])]) :=
  (c3_successful_inline witnessEnv "/site" "/site/pages/a.html"
    ⟨"script", [("type", "importmap"), ("src", "../maps/m.json")], ""⟩ []
    "../maps/m.json" "c" (.obj [("imports", .obj [])])
    rfl rfl rfl rfl rfl rfl).1

/-- Claim C4: a response whose content type is not HTML, and an HTML response
for which the configured run-predicate (default true) evaluates to false, pass
through with body, type and registry untouched, independently of the host
environment (so no file is read); for a non-HTML response the outcome does not
depend on the run-predicate at all, which is only consulted after the HTML
check. -/
theorem c4_gate_pass_through (env env₂ : Env) (options : MiddlewareOptions)
    (ctx : Ctx) (reg : Registry) :
    (ctx.responseType ≠ "text/html" →
      middlewarePost env options ctx reg = ⟨none, ctx, reg⟩)
    ∧ (ctx.responseType = "text/html" → shouldRunValue options ctx = false →
      middlewarePost env options ctx reg = ⟨none, ctx, reg⟩)
    ∧ (ctx.responseType ≠ "text/html" →
      ∀ f g : Option (Ctx → Bool),
        middlewarePost env { options with shouldRun := f } ctx reg =
          middlewarePost env { options with shouldRun := g } ctx reg)
    ∧ ((ctx.responseType ≠ "text/html" ∨ shouldRunValue options ctx = false) →
      middlewarePost env options ctx reg = middlewarePost env₂ options ctx reg) := by
  have key : ∀ (e : Env) (o : MiddlewareOptions),
      (ctx.responseType ≠ "text/html" ∨ shouldRunValue o ctx = false) →
      middlewarePost e o ctx reg = ⟨none, ctx, reg⟩ := by
    intro e o h
    unfold middlewarePost
    rcases h with h | h
    · rw [if_pos h]
    · by_cases hh : ctx.responseType ≠ "text/html"
      · rw [if_pos hh]
      · rw [if_neg hh, if_pos h]
  refine ⟨fun h => key env options (.inl h),
    fun _ h => key env options (.inr h),
    fun h f g => ?_,
    fun h => by rw [key env options h, key env₂ options h]⟩
  rw [key env _ (.inl h), key env _ (.inl h)]

/-- Options used by the concrete witnesses: served root `/site`, no
run-predicate, `/` mapped to `/index.html`. -/
def witnessOptions : MiddlewareOptions where
  servedDirectoryAbsolutePath := "/site"
  shouldRun := none
  getFilePathOfRequestUrl := fun u => if u = "/" then "/index.html" else u

/-- Witness options whose run-predicate always declines. -/
def witnessOptionsOff : MiddlewareOptions where
  servedDirectoryAbsolutePath := "/site"
  shouldRun := some (fun _ => false)
  getFilePathOfRequestUrl := fun u => u

theorem c4_witness :
    middlewarePost witnessEnv witnessOptions ⟨"/", "application/json", .text "x"⟩ [] =
      ⟨none, ⟨"/", "application/json", .text "x"⟩, []⟩
    ∧ middlewarePost witnessEnv witnessOptionsOff ⟨"/", "text/html", .text "x"⟩ [] =
      ⟨none, ⟨"/", "text/html", .text "x"⟩, []⟩ :=
  ⟨(c4_gate_pass_through witnessEnv witnessEnv witnessOptions
      ⟨"/", "application/json", .text "x"⟩ []).1 (by decide),
   (c4_gate_pass_through witnessEnv witnessEnv witnessOptionsOff
      ⟨"/", "text/html", .text "x"⟩ []).2.1 rfl rfl⟩

/-- Claim C5: an HTML-typed response whose body is none of the three
recognized representations makes the dispatcher raise the unsupported-body
error, which propagates for that request; the context and the registry are
left untouched — no partial handling and no transformed body. -/
theorem c5_unsupported_body (env : Env) (options : MiddlewareOptions) (ctx : Ctx)
    (reg : Registry) (name : String)
    (hhtml : ctx.responseType = "text/html")
    (hrun : shouldRunValue options ctx = true)
    (hbody : ctx.responseBody = .other name) :
    middlewarePost env options ctx reg = ⟨some (.unsupportedBody name), ctx, reg⟩ := by
  unfold middlewarePost
  rw [if_neg (by simp [hhtml]), if_neg (by simp [hrun])]
  simp only [hbody]

theorem c5_witness :
    middlewarePost witnessEnv witnessOptions ⟨"/", "text/html", .other "Blob"⟩ [] =
      ⟨some (.unsupportedBody "Blob"), ⟨"/", "text/html", .other "Blob"⟩, []⟩ :=
  c5_unsupported_body witnessEnv witnessOptions ⟨"/", "text/html", .other "Blob"⟩ []
    "Blob" rfl rfl rfl

/-- Claim C6: a matched element whose resolved file is actually loaded (fresh
path) but cannot be read, or whose content fails to parse as JSON, makes the
element callback fail; the failure aborts the whole document transform with no
partial output, and an HTML request whose transform fails is left with its
original body and the error propagated — all-or-nothing, no fallback. -/
theorem c6_load_or_parse_failure_fails_request (env : Env) (root hp : String)
    (el : Element) (reg : Registry) (src : String)
    (htag : el.tagName = "script")
    (hty : getAttribute el "type" = some "importmap")
    (hsrc : getAttribute el "src" = some src)
    (hfresh : List.find? (fun entry => entry.1 == resolveImportMapSrc env.cwd root hp src)
      reg = none)
    (hfail : env.fs (resolveImportMapSrc env.cwd root hp src) = none ∨
      ∃ c, env.fs (resolveImportMapSrc env.cwd root hp src) = some c ∧
        env.parseJson c = none) :
    (∃ e : TransformError, processElement env root hp el reg = (.error e, reg))
    ∧ (∀ (post : List Node) (e : TransformError) (pre pre' : List Node)
        (reg₀ reg₁ : Registry),
        transformResponse env root hp pre reg₀ = (.ok pre', reg₁) →
        processElement env root hp el reg₁ = (.error e, reg₁) →
        transformResponse env root hp (pre ++ .element el :: post) reg₀ =
          (.error e, reg₁))
    ∧ (∀ (options : MiddlewareOptions) (ctx : Ctx) (reg₀ reg₁ : Registry)
        (s : String) (e : TransformError),
        ctx.responseType = "text/html" → shouldRunValue options ctx = true →
        ctx.responseBody = .text s →
        transformResponse env options.servedDirectoryAbsolutePath
          (Path.join2 options.servedDirectoryAbsolutePath
            (options.getFilePathOfRequestUrl ctx.requestUrl))
          (env.parseHtml s) reg₀ = (.error e, reg₁) →
        middlewarePost env options ctx reg₀ = ⟨some (.transform e), ctx, reg₁⟩) := by
  refine ⟨?_, fun post e => transformResponse_append_error env root hp el post e, ?_⟩
  · rw [processElement_matched env root hp el reg src htag hty hsrc]
    unfold importJsonModule
    rcases hfail with h | ⟨c, hc, hpc⟩
    · refine ⟨.loadFailure (resolveImportMapSrc env.cwd root hp src), ?_⟩
      simp only [hfresh, h]
    · refine ⟨.parseFailure (resolveImportMapSrc env.cwd root hp src), ?_⟩
      simp only [hfresh, hc, hpc]
  · intro options ctx reg₀ reg₁ s e hhtml hrun hbody htr
    unfold middlewarePost
    rw [if_neg (by simp [hhtml]), if_neg (by simp [hrun])]
    simp only [hbody]
    unfold runTransformOnText
    rw [htr]

theorem c6_witness :
    ∃ e : TransformError,
      processElement witnessEnv "/site" "/site/pages/a.html"
        ⟨"script", [("type", "importmap"), ("src", "/nope.json")], ""⟩ [] =
        (.error e, []) :=
  (c6_load_or_parse_failure_fails_request witnessEnv "/site" "/site/pages/a.html"
    ⟨"script", [("type", "importmap"), ("src", "/nope.json")], ""⟩ [] "/nope.json"
    rfl rfl rfl rfl (.inl rfl)).1

/-- The outcome of the common transform tail depends on the incoming context
only through its request url: error and registry are identical for any
response type and body, and on success the whole outputs coincide (type and
body are overwritten). -/
theorem runTransformOnText_body_independent (env : Env) (options : MiddlewareOptions)
    (hp s url ty₁ ty₂ : String) (b₁ b₂ : ResponseBody) (reg : Registry) :
    (runTransformOnText env options hp s ⟨url, ty₁, b₁⟩ reg).error =
      (runTransformOnText env options hp s ⟨url, ty₂, b₂⟩ reg).error
    ∧ (runTransformOnText env options hp s ⟨url, ty₁, b₁⟩ reg).registry =
      (runTransformOnText env options hp s ⟨url, ty₂, b₂⟩ reg).registry
    ∧ ((runTransformOnText env options hp s ⟨url, ty₁, b₁⟩ reg).error = none →
      runTransformOnText env options hp s ⟨url, ty₁, b₁⟩ reg =
        runTransformOnText env options hp s ⟨url, ty₂, b₂⟩ reg) := by
  unfold runTransformOnText
  rcases htr : transformResponse env options.servedDirectoryAbsolutePath hp
    (env.parseHtml s) reg with ⟨res, reg'⟩
  cases res <;> simp

/-- On a successful transform the installed context carries a text body and
the `text/html` type. -/
theorem runTransformOnText_ok_shape (env : Env) (options : MiddlewareOptions)
    (hp s : String) (ctx : Ctx) (reg : Registry)
    (h : (runTransformOnText env options hp s ctx reg).error = none) :
    ∃ t, (runTransformOnText env options hp s ctx reg).ctx.responseBody = .text t
      ∧ (runTransformOnText env options hp s ctx reg).ctx.responseType = "text/html" := by
  unfold runTransformOnText at h ⊢
  rcases htr : transformResponse env options.servedDirectoryAbsolutePath hp
    (env.parseHtml s) reg with ⟨res, reg'⟩
  cases res with
  | ok doc' => exact ⟨serializeDoc doc', rfl, rfl⟩
  | error e =>
    rw [htr] at h
    exact Option.noConfusion h

/-- Reduction of the dispatcher to the common tail, one lemma per supported
body representation. -/
theorem middlewarePost_text (env : Env) (options : MiddlewareOptions)
    (url ty s : String) (reg : Registry)
    (hty : ty = "text/html")
    (hrun : shouldRunValue options ⟨url, ty, .text s⟩ = true) :
    middlewarePost env options ⟨url, ty, .text s⟩ reg =
      runTransformOnText env options
        (Path.join2 options.servedDirectoryAbsolutePath
          (options.getFilePathOfRequestUrl url)) s ⟨url, ty, .text s⟩ reg := by
  unfold middlewarePost
  rw [if_neg (by simp [hty]), if_neg (by simp [hrun])]

theorem middlewarePost_binary (env : Env) (options : MiddlewareOptions)
    (url ty : String) (bytes : List Nat) (reg : Registry)
    (hty : ty = "text/html")
    (hrun : shouldRunValue options ⟨url, ty, .binary bytes⟩ = true) :
    middlewarePost env options ⟨url, ty, .binary bytes⟩ reg =
      runTransformOnText env options
        (Path.join2 options.servedDirectoryAbsolutePath
          (options.getFilePathOfRequestUrl url)) (env.utf8Decode bytes)
        ⟨url, ty, .binary bytes⟩ reg := by
  unfold middlewarePost
  rw [if_neg (by simp [hty]), if_neg (by simp [hrun])]

theorem middlewarePost_stream (env : Env) (options : MiddlewareOptions)
    (url ty : String) (chunks : List (List Nat)) (reg : Registry)
    (hty : ty = "text/html")
    (hrun : shouldRunValue options ⟨url, ty, .stream chunks⟩ = true) :
    middlewarePost env options ⟨url, ty, .stream chunks⟩ reg =
      runTransformOnText env options
        (Path.join2 options.servedDirectoryAbsolutePath
          (options.getFilePathOfRequestUrl url)) (env.utf8Decode chunks.flatten)
        ⟨url, ty, .stream chunks⟩ reg := by
  unfold middlewarePost readStreamToString
  rw [if_neg (by simp [hty]), if_neg (by simp [hrun])]

/-- Claim C7: one HTML document handed to the middleware as a text body, as a
binary body holding the UTF-8 bytes of the same text, or as a stream draining
to the same text, produces the same error and the same registry; when the
transform succeeds the three outputs are fully identical, carrying a common
output text and the `text/html` content type. -/
theorem c7_representation_equivalence (env : Env) (options : MiddlewareOptions)
    (url s : String) (bytes : List Nat) (chunks : List (List Nat)) (reg : Registry)
    (hrun : ∀ b : ResponseBody, shouldRunValue options ⟨url, "text/html", b⟩ = true)
    (hbytes : env.utf8Decode bytes = s)
    (hchunks : env.utf8Decode chunks.flatten = s) :
    ((middlewarePost env options ⟨url, "text/html", .binary bytes⟩ reg).error =
      (middlewarePost env options ⟨url, "text/html", .text s⟩ reg).error)
    ∧ ((middlewarePost env options ⟨url, "text/html", .stream chunks⟩ reg).error =
      (middlewarePost env options ⟨url, "text/html", .text s⟩ reg).error)
    ∧ ((middlewarePost env options ⟨url, "text/html", .binary bytes⟩ reg).registry =
      (middlewarePost env options ⟨url, "text/html", .text s⟩ reg).registry)
    ∧ ((middlewarePost env options ⟨url, "text/html", .stream chunks⟩ reg).registry =
      (middlewarePost env options ⟨url, "text/html", .text s⟩ reg).registry)
    ∧ ((middlewarePost env options ⟨url, "text/html", .text s⟩ reg).error = none →
      middlewarePost env options ⟨url, "text/html", .binary bytes⟩ reg =
        middlewarePost env options ⟨url, "text/html", .text s⟩ reg
      ∧ middlewarePost env options ⟨url, "text/html", .stream chunks⟩ reg =
        middlewarePost env options ⟨url, "text/html", .text s⟩ reg
      ∧ ∃ t,
          (middlewarePost env options ⟨url, "text/html", .text s⟩ reg).ctx.responseBody
            = .text t
          ∧ (middlewarePost env options ⟨url, "text/html", .text s⟩ reg).ctx.responseType
            = "text/html") := by
  have hT := middlewarePost_text env options url "text/html" s reg rfl (hrun (.text s))
  have hB := middlewarePost_binary env options url "text/html" bytes reg rfl
    (hrun (.binary bytes))
  have hS := middlewarePost_stream env options url "text/html" chunks reg rfl
    (hrun (.stream chunks))
  rw [hbytes] at hB
  rw [hchunks] at hS
  have hBcmp := runTransformOnText_body_independent env options
    (Path.join2 options.servedDirectoryAbsolutePath (options.getFilePathOfRequestUrl url))
    s url "text/html" "text/html" (.binary bytes) (.text s) reg
  have hScmp := runTransformOnText_body_independent env options
    (Path.join2 options.servedDirectoryAbsolutePath (options.getFilePathOfRequestUrl url))
    s url "text/html" "text/html" (.stream chunks) (.text s) reg
  rw [hT, hB, hS]
  refine ⟨hBcmp.1, hScmp.1, hBcmp.2.1, hScmp.2.1, fun hok => ?_⟩
  refine ⟨hBcmp.2.2 (hBcmp.1.trans hok), hScmp.2.2 (hScmp.1.trans hok), ?_⟩
  exact runTransformOnText_ok_shape env options _ s ⟨url, "text/html", .text s⟩ reg hok

theorem c7_witness :
    ((middlewarePost witnessEnv witnessOptions ⟨"/", "text/html", .binary []⟩ []).error =
      (middlewarePost witnessEnv witnessOptions ⟨"/", "text/html", .text ""⟩ []).error)
    ∧ ((middlewarePost witnessEnv witnessOptions ⟨"/", "text/html", .stream []⟩ []).error =
      (middlewarePost witnessEnv witnessOptions ⟨"/", "text/html", .text ""⟩ []).error) :=
  ⟨(c7_representation_equivalence witnessEnv witnessOptions "/" "" [] [] []
      (fun _ => rfl) rfl rfl).1,
   (c7_representation_equivalence witnessEnv witnessOptions "/" "" [] [] []
      (fun _ => rfl) rfl rfl).2.1⟩

/-- Host state before the import-map file changes: `/r/m.json` reads `"A"`,
which parses to the JSON string `"a"`. -/
def c8EnvBefore : Env where
  cwd := "/"
  fs := fun p => if p = "/r/m.json" then some "A" else none
  parseJson := fun s =>
    if s = "A" then some (.str "a") else if s = "B" then some (.str "b") else none
  parseHtml := fun _ => []
  utf8Decode := fun _ => ""

/-- The same host after the file's content changed to `"B"`, which parses to
the JSON string `"b"`. -/
def c8EnvAfter : Env where
  cwd := "/"
  fs := fun p => if p = "/r/m.json" then some "B" else none
  parseJson := c8EnvBefore.parseJson
  parseHtml := c8EnvBefore.parseHtml
  utf8Decode := c8EnvBefore.utf8Decode

def c8Doc : List Node :=
  [.element ⟨"script", [("type", "importmap"), ("src", "/m.json")], ""⟩]

/-- Counterexample to claim C8: the dynamic `import()` goes through the module
registry, so a second request served after the file's content changed from
`"A"` to `"B"` still inlines the originally parsed value `"a"` — not the
serialization `"b"` of the new content — and leaves the registry as it was,
reading nothing. -/
theorem c8_counterexample :
    transformResponse c8EnvBefore "/r" "/r/index.html" c8Doc [] =
      (.ok [.element ⟨"script", [("type", "importmap")], "\"a\""⟩],
       [("/r/m.json", .str "a")])
    ∧ c8EnvAfter.fs "/r/m.json" = some "B"
    ∧ c8EnvAfter.parseJson "B" = some (.str "b")
    ∧ serializeJson (.str "b") = "\"b\""
    ∧ transformResponse c8EnvAfter "/r" "/r/index.html" c8Doc
        [("/r/m.json", .str "a")] =
      (.ok [.element ⟨"script", [("type", "importmap")], "\"a\""⟩],
       [("/r/m.json", .str "a")])
    ∧ "\"a\"" ≠ "\"b\"" :=
  ⟨rfl, rfl, rfl, rfl, rfl, by decide⟩

/-- Claim C8 as amended: each matching request re-runs the transform, but the
parsed import map is cached by the host module registry under its resolved
path; a request whose resolved path is already registered inlines the cached
value without consulting the file system at all (so a later request does not
reflect a changed file), and only a request with a fresh path reads and parses
the file. -/
theorem c8_amended_module_cache (env : Env) (root hp : String) (el : Element)
    (reg : Registry) (src : String) (entry : String × Json)
    (htag : el.tagName = "script")
    (hty : getAttribute el "type" = some "importmap")
    (hsrc : getAttribute el "src" = some src)
    (hcached : List.find? (fun entry => entry.1 == resolveImportMapSrc env.cwd root hp src)
      reg = some entry) :
    processElement env root hp el reg = (.ok (rewrittenElement el entry.2), reg)
    ∧ ∀ env₂ : Env, env₂.cwd = env.cwd →
        processElement env₂ root hp el reg = (.ok (rewrittenElement el entry.2), reg) := by
  have main : ∀ env₂ : Env, env₂.cwd = env.cwd →
      processElement env₂ root hp el reg = (.ok (rewrittenElement el entry.2), reg) := by
    intro env₂ hcwd
    rw [processElement_matched env₂ root hp el reg src htag hty hsrc]
    unfold importJsonModule
    rw [hcwd]
    simp only [hcached]
  exact ⟨main env rfl, main⟩

theorem c8_amended_witness :
    processElement c8EnvAfter "/r" "/r/index.html"
      ⟨"script", [("type", "importmap"), ("src", "/m.json")], ""⟩
      [("/r/m.json", .str "a")] =
      (.ok ⟨"script", [("type", "importmap")], "\"a\""⟩, [("/r/m.json", .str "a")]) :=
  (c8_amended_module_cache c8EnvAfter "/r" "/r/index.html"
    ⟨"script", [("type", "importmap"), ("src", "/m.json")], ""⟩
    [("/r/m.json", .str "a")] "/m.json" ("/r/m.json", .str "a")
    rfl rfl rfl rfl).1

/-- Claim C9: the output of a successful transform contains no `src`-bearing
import-map script any more, so running the transform again on that output
returns it unchanged and leaves the registry alone — a no-op. -/
theorem c9_transform_idempotent_on_output (env : Env) (root hp : String)
    (doc doc' : List Node) (reg reg' : Registry)
    (h : transformResponse env root hp doc reg = (.ok doc', reg')) (reg₂ : Registry) :
    transformResponse env root hp doc' reg₂ = (.ok doc', reg₂) :=
  transformResponse_ok_stable env env root hp root hp doc doc' reg reg' reg₂ h

theorem c9_witness :
    transformResponse witnessEnv "/site" "/site/pages/a.html"
      [.text "<html>",
       .element ⟨"script", [("type", "importmap")], "\x7b\"imports\":\x7b\x7d\x7d"⟩,
       .text "</html>"] [] =
      (.ok [.text "<html>",
        .element ⟨"script", [("type", "importmap")], "\x7b\"imports\":\x7b\x7d\x7d"⟩,
        .text "</html>"], []) :=
  c9_transform_idempotent_on_output witnessEnv "/site" "/site/pages/a.html"
    [.text "<html>",
     .element ⟨"script", [("type", "importmap"), ("src", "../maps/m.json")], ""⟩,
     .text "</html>"]
    [.text "<html>",
     .element ⟨"script", [("type", "importmap")], "\x7b\"imports\":\x7b\x7d\x7d"⟩,
     .text "</html>"]
    [] [("/site/maps/m.json", .obj [("imports", .obj [])])] rfl []

/-- Errors thrown by `runTransformOnText` leave the context untouched. -/
theorem runTransformOnText_error_ctx (env : Env) (options : MiddlewareOptions)
    (hp s : String) (ctx ctx' : Ctx) (reg reg' : Registry) (e : MiddlewareError)
    (h : runTransformOnText env options hp s ctx reg = ⟨some e, ctx', reg'⟩) :
    ctx' = ctx := by
  unfold runTransformOnText at h
  rcases htr : transformResponse env options.servedDirectoryAbsolutePath hp
    (env.parseHtml s) reg with ⟨res, reg₁⟩
  rw [htr] at h
  cases res with
  | ok doc' =>
    simp only [MiddlewareOutput.mk.injEq] at h
    exact Option.noConfusion h.1
  | error e' =>
    simp only [MiddlewareOutput.mk.injEq] at h
    exact h.2.1.symm

/-- Claim C10: whenever the middleware's post-processing ends in an error —
a transform failure or an unsupported body — the context it leaves behind is
exactly the incoming one: body and content type are assigned only after the
whole transform has succeeded. -/
theorem c10_response_unchanged_on_error (env : Env) (options : MiddlewareOptions)
    (ctx ctx' : Ctx) (reg reg' : Registry) (e : MiddlewareError)
    (h : middlewarePost env options ctx reg = ⟨some e, ctx', reg'⟩) :
    ctx' = ctx := by
  unfold middlewarePost at h
  by_cases h1 : ctx.responseType ≠ "text/html"
  · rw [if_pos h1] at h
    simp only [MiddlewareOutput.mk.injEq] at h
    exact Option.noConfusion h.1
  · rw [if_neg h1] at h
    by_cases h2 : shouldRunValue options ctx = false
    · rw [if_pos h2] at h
      simp only [MiddlewareOutput.mk.injEq] at h
      exact Option.noConfusion h.1
    · rw [if_neg h2] at h
      rcases hbody : ctx.responseBody with s | bytes | chunks | name
      · simp only [hbody] at h
        exact runTransformOnText_error_ctx env options _ _ ctx ctx' reg reg' e h
      · simp only [hbody] at h
        exact runTransformOnText_error_ctx env options _ _ ctx ctx' reg reg' e h
      · simp only [hbody] at h
        exact runTransformOnText_error_ctx env options _ _ ctx ctx' reg reg' e h
      · simp only [hbody] at h
        simp only [MiddlewareOutput.mk.injEq] at h
        exact h.2.1.symm

/-- Environment whose HTML tokenizer sees one external import-map script whose
file is missing, so every transform fails with a load failure. -/
def witnessEnvErr : Env where
  cwd := "/"
  fs := fun _ => none
  parseJson := fun _ => none
  parseHtml := fun _ =>
    [.element ⟨"script", [("type", "importmap"), ("src", "/m.json")], ""⟩]
  utf8Decode := fun _ => ""

theorem c10_witness :
    (⟨"/", "text/html", .text "page"⟩ : Ctx) = ⟨"/", "text/html", .text "page"⟩ :=
  c10_response_unchanged_on_error witnessEnvErr witnessOptions
    ⟨"/", "text/html", .text "page"⟩ ⟨"/", "text/html", .text "page"⟩ [] []
    (.transform (.loadFailure "/site/m.json")) rfl

end ImportMapMiddleware
